import Mathlib

/-!
# aquachain-proxy: upstream failover and the JSON-RPC request loop

A shallow embedding of `proxy/proxy.go`:

* `ProxyServer.rpc` and `ProxyServer.checkUpstreams` (upstream selection);
* `Session.sendResult`, `Session.sendError`, `Session.handleMessage` (dispatch of one
  decoded request);
* `ProxyServer.handleClient` (the read loop over the request body).

Go values are embedded as follows. An `int32` is an `Int` kept in range by `toInt32`;
a nilable pointer is an `Option`; a Go `error` is the `String` of its message; a panic
is the `.error` side of `Except String`. The standard logger and the response writer
are output streams, embedded as the list of what was written to them. Calls into
libraries (`encoding/json`, `bufio`, `net`) and into the files of the package that
are not part of this development are parameters of the embedding.
-/

namespace Proxy

/-! ## Data model -/

/-- The conversion `int32(i)`: the value is reduced into `[-2^31, 2^31)`. -/
def toInt32 (i : Int) : Int := (i + 2147483648) % 4294967296 - 2147483648

/-- The `rpc.RPCClient` fields that `proxy.go` reads. -/
structure RPCClient where
  Name : String
  Url : String
deriving DecidableEq, Repr

/-- The pair `(ok, err)` returned by one call of `RPCClient.Check`. -/
structure CheckResult where
  ok : Bool
  err : Option String
deriving DecidableEq, Repr

/-- The `Proxy` section of `Config`, with the toggle read by `handleMessage`. -/
structure ProxyCfg where
  SubmitHashrate : Bool
deriving DecidableEq, Repr

/-- The part of `Config` that the embedded functions read. -/
structure Config where
  Proxy : ProxyCfg
deriving DecidableEq, Repr

/-- The `ProxyServer` struct. `MinersMap` is the type of the miner registry, declared
outside `proxy.go`. `aux` gathers the remaining fields (`blockTemplate`,
`hashrateWindow`, `timeout`, `roundShares`, `blockStats`, `luckWindow`,
`luckLargeWindow`, `Context`, `Cancel`): none of the functions embedded here reads or
writes them, only the handlers taken as parameters may. -/
structure ProxyServer (MinersMap Aux : Type) where
  config : Config
  miners : MinersMap
  upstream : Int
  upstreams : List RPCClient
  aux : Aux

variable {MinersMap Aux : Type}

/-- Go slice indexing `xs[i]` with an `int32` index: `none` stands for the run-time
panic on an index out of range. -/
def index? {α : Type} (xs : List α) (i : Int) : Option α :=
  if i < 0 then none else xs.get? i.toNat

/-- `ProxyServer.rpc`: the client at the active index. -/
def rpc (s : ProxyServer MinersMap Aux) : Option RPCClient :=
  index? s.upstreams s.upstream

/-- The local variables of `checkUpstreams` that its loop updates, and the lines it has
logged. -/
structure CheckLoop where
  candidate : Int
  backup : Bool
  log : List String
deriving DecidableEq, Repr

/-- The body of `for i, v := range s.upstreams`, run on the clients from index `i` on.
`check j` is what `Check` returns for the client at index `j` in this cycle. -/
def checkLoop (check : Nat → CheckResult) : List RPCClient → Nat → CheckLoop → CheckLoop
  | [], _, st => st
  | v :: rest, i, st =>
    let res := check i
    let log := match res.err with
      | some e => st.log ++ ["Upstream " ++ v.Name ++ " didn't pass check: " ++ e]
      | none => st.log
    if res.ok && !st.backup then
      checkLoop check rest (i + 1) { candidate := toInt32 i, backup := true, log := log }
    else
      checkLoop check rest (i + 1) { st with log := log }

/-- `ProxyServer.checkUpstreams`: one health-check cycle. The result is the server after
the cycle and the lines logged; `.error` is the panic of `s.upstreams[candidate]`. -/
def checkUpstreams (s : ProxyServer MinersMap Aux) (check : Nat → CheckResult) :
    Except String (ProxyServer MinersMap Aux × List String) :=
  let st := checkLoop check s.upstreams 0 { candidate := toInt32 0, backup := false, log := [] }
  if s.upstream ≠ st.candidate then
    match index? s.upstreams st.candidate with
    | none => .error "index out of range"
    | some v =>
      .ok ({ s with upstream := st.candidate },
           st.log ++ ["Switching to " ++ v.Name ++ " upstream"])
  else
    .ok (s, st.log)

/-! ## Requests, responses and sessions -/

/-- A byte slice (`[]byte`, `json.RawMessage`). -/
abbrev Bytes := List UInt8

/-- The `JSONRpcReq` struct as `proxy.go` uses it: `Id` and `Params` are pointers to raw
JSON and `nil` when the member is absent or `null`. -/
structure JSONRpcReq where
  Id : Option Bytes
  Method : String
  Params : Option Bytes
deriving DecidableEq, Repr

/-- The `ErrorReply` struct: the `error` member of a response. -/
structure ErrorReply where
  Code : Int
  Message : String
deriving DecidableEq, Repr

/-- The values stored in the `Result interface{}` field of a response: the zero value
`nil`, a boolean, or the work fields of `getWork`. -/
inductive Result where
  | nil
  | bool (b : Bool)
  | work (fields : List String)
deriving DecidableEq, Repr

/-- The `JSONRpcResp` struct. -/
structure JSONRpcResp where
  Id : Option Bytes
  Version : String
  Result : Result
  Error : Option ErrorReply
deriving DecidableEq, Repr

/-- The `Session` struct. The encoder `enc` writes one line per `Encode` call to the
response writer; it is embedded as the list of the messages encoded so far. A write is
taken to succeed: the `error` of `Encode` is dropped by every caller in `handleMessage`. -/
structure Session where
  enc : List JSONRpcResp
  ip : String
deriving DecidableEq, Repr

/-- An `error` returned by a read: the sentinel `io.EOF`, or any other error, given by
its message. -/
inductive ReadError where
  | EOF
  | other (msg : String)
deriving DecidableEq, Repr

/-- One result `(data, isPrefix, err)` of `bufio.Reader.ReadLine`. -/
structure ReadLine where
  data : Bytes
  isPrefix : Bool
  err : Option ReadError
deriving DecidableEq, Repr

/-- The `http.Request` fields that `proxy.go` touches: the flag `Close`, the route
variables returned by `mux.Vars`, the remote address, and the body. The body is given
by what `ReadLine` returns on it: `Body size i` is the result of call number `i`
(from 0) of a buffered reader of size `size`. `BodyClosed` records `r.Body.Close()`. -/
structure Request where
  Close : Bool
  Vars : List (String × String)
  RemoteAddr : String
  Body : Nat → Nat → ReadLine
  BodyClosed : Bool

/-- Lookup in a Go `map[string]string`: a missing key gives the empty string. -/
def lookup (m : List (String × String)) (k : String) : String :=
  match m.find? (fun kv => kv.1 == k) with
  | some kv => kv.2
  | none => ""

/-- The methods of the package that `handleMessage` calls. -/
inductive Call where
  | handleGetWorkRPC
  | handleSubmitRPC
  | handleSubmitHashrate
  | handleUnknownRPC
deriving DecidableEq, Repr

/-- Everything one `handleClient` invocation reads or writes: the server `s`, the
request `r`, the session `cs`, the lines these functions sent to the logger, and the
trace `calls` of the handler methods invoked so far. -/
structure Conn (MinersMap Aux : Type) where
  s : ProxyServer MinersMap Aux
  r : Request
  cs : Session
  log : List String
  calls : List Call

/-- The callees of `handleMessage` and `handleClient` that are not defined in
`proxy.go`. The two `json.Unmarshal` calls and `net.SplitHostPort` are library code.
The four handler methods live in another file of the package: each is given the
server and its arguments and returns its reply together with the server as it left
it. Three things are assumed of a handler by this signature: it returns, it does not
panic, and it reads the session without writing to its encoder or to the request (the
session alone encodes the response of a request). -/
structure Env (MinersMap Aux : Type) where
  unmarshalReq : Bytes → Except String JSONRpcReq
  unmarshalStrings : Bytes → Except String (List String)
  splitHost : String → String
  handleGetWorkRPC : ProxyServer MinersMap Aux → Session → String → String →
    (List String × Option ErrorReply) × ProxyServer MinersMap Aux
  handleSubmitRPC : ProxyServer MinersMap Aux → Session → String → String → List String →
    (Bool × Option ErrorReply) × ProxyServer MinersMap Aux
  handleSubmitHashrate : ProxyServer MinersMap Aux → Session → JSONRpcReq →
    Bool × ProxyServer MinersMap Aux
  handleUnknownRPC : ProxyServer MinersMap Aux → Session → JSONRpcReq →
    Option ErrorReply × ProxyServer MinersMap Aux

/-! ## Dispatch of one request -/

/-- `Session.sendResult`: encode a response with the given result and no error. -/
def sendResult (cs : Session) (id : Option Bytes) (result : Result) : Session :=
  { cs with enc := cs.enc ++ [{ Id := id, Version := "2.0", Result := result, Error := none }] }

/-- `Session.sendError`: encode a response with the given error; `Result` keeps its
zero value. -/
def sendError (cs : Session) (id : Option Bytes) (reply : Option ErrorReply) : Session :=
  { cs with enc := cs.enc ++ [{ Id := id, Version := "2.0", Result := .nil, Error := reply }] }

/-- `Session.handleMessage`. `.error` is a run-time panic. -/
def handleMessage (env : Env MinersMap Aux) (c : Conn MinersMap Aux) (req : JSONRpcReq) :
    Except String (Conn MinersMap Aux) :=
  match req.Id with
  | none =>
    .ok { c with log := c.log ++ ["Missing RPC id"], r := { c.r with Close := true } }
  | some _ =>
    let vars := c.r.Vars
    let diff := if lookup vars "diff" = "" then "0" else lookup vars "diff"
    if req.Method = "eth_getWork" ∨ req.Method = "aqua_getWork" then
      let out := env.handleGetWorkRPC c.s c.cs diff (lookup vars "id")
      let c := { c with s := out.2, calls := c.calls ++ [Call.handleGetWorkRPC] }
      match out.1.2 with
      | some errReply => .ok { c with cs := sendError c.cs req.Id (some errReply) }
      | none => .ok { c with cs := sendResult c.cs req.Id (.work out.1.1) }
    else if req.Method = "eth_submitWork" ∨ req.Method = "aqua_submitWork" then
      match req.Params with
      | none => .error "invalid memory address or nil pointer dereference"
      | some raw =>
        match env.unmarshalStrings raw with
        | .error _ => .ok { c with log := c.log ++ ["Unable to parse params"] }
        | .ok params =>
          let out := env.handleSubmitRPC c.s c.cs diff (lookup vars "id") params
          let c := { c with s := out.2, calls := c.calls ++ [Call.handleSubmitRPC] }
          match out.1.2 with
          | some errReply => .ok { c with cs := sendError c.cs req.Id (some errReply) }
          | none => .ok { c with cs := sendResult c.cs req.Id (.bool out.1.1) }
    else if req.Method = "eth_submitHashrate" ∨ req.Method = "aqua_submitHashrate" then
      if c.s.config.Proxy.SubmitHashrate then
        let out := env.handleSubmitHashrate c.s c.cs req
        let c := { c with s := out.2, calls := c.calls ++ [Call.handleSubmitHashrate] }
        .ok { c with cs := sendResult c.cs req.Id (.bool out.1) }
      else
        .ok { c with cs := sendResult c.cs req.Id (.bool true) }
    else
      let out := env.handleUnknownRPC c.s c.cs req
      let c := { c with s := out.2, calls := c.calls ++ [Call.handleUnknownRPC] }
      .ok { c with cs := sendError c.cs req.Id out.1 }

/-! ## The read loop -/

/-- The constant `MaxReqSize`. -/
def MaxReqSize : Nat := 1 * 1024

/-- How a run of `handleClient` over a given sequence of `ReadLine` results ends:
it returned (with its `error`, `none` for `nil`), it panicked, or it consumed every
result given and is `reading`, that is, calling `ReadLine` once more. -/
inductive Outcome (σ : Type) where
  | returned (err : Option String) (c : σ)
  | panicked (msg : String)
  | reading (c : σ)

/-- The `for` loop of `handleClient`, run on the results of its successive `ReadLine`
calls. -/
def readLoop (env : Env MinersMap Aux) :
    List ReadLine → Conn MinersMap Aux → Outcome (Conn MinersMap Aux)
  | [], c => .reading c
  | rl :: rest, c =>
    if rl.isPrefix then
      .returned (some "socket flood") { c with log := c.log ++ ["Socket flood detected"] }
    else if rl.err = some ReadError.EOF then
      .returned none c
    else if rl.data.length > 1 then
      match env.unmarshalReq rl.data with
      | .error e => .returned (some e) { c with log := c.log ++ ["Malformed request: " ++ e] }
      | .ok req =>
        match handleMessage env c req with
        | .error msg => .panicked msg
        | .ok c1 => readLoop env rest c1
    else
      readLoop env rest c

/-- The deferred `r.Body.Close()`, run when `handleClient` returns. -/
def closeBody : Outcome (Conn MinersMap Aux) → Outcome (Conn MinersMap Aux)
  | .returned err c => .returned err { c with r := { c.r with BodyClosed := true } }
  | o => o

/-- `ProxyServer.handleClient`, serving request `r` of server `s`. `w` holds the lines
already written to the response writer and `log` the lines already logged. The loop
is followed for at most `n` calls of `ReadLine`: when it needs one more, the outcome is
`reading`. -/
def handleClient (env : Env MinersMap Aux) (s : ProxyServer MinersMap Aux)
    (w : List JSONRpcResp) (r : Request) (log : List String) (n : Nat) :
    Outcome (Conn MinersMap Aux) :=
  let ip := env.splitHost r.RemoteAddr
  let cs : Session := { ip := ip, enc := w }
  let connbuff := r.Body MaxReqSize
  closeBody (readLoop env ((List.range n).map connbuff)
    { s := s, r := r, cs := cs, log := log, calls := [] })

/-! ## Method names -/

/-- Whether `method` is one of the six method names that `handleMessage` serves. -/
def served (method : String) : Bool :=
  method = "eth_getWork" ∨ method = "aqua_getWork" ∨
  method = "eth_submitWork" ∨ method = "aqua_submitWork" ∨
  method = "eth_submitHashrate" ∨ method = "aqua_submitHashrate"

/-- Whether `method` is one of the two names of `submitWork`. -/
def isSubmitWork (method : String) : Bool :=
  method = "eth_submitWork" ∨ method = "aqua_submitWork"

/-! ## Sample inputs -/

/-- A server with two upstreams whose active index is 1, the backup. -/
def twoUpstreams : ProxyServer Unit Unit :=
  { config := { Proxy := { SubmitHashrate := false } }, miners := (), upstream := 1,
    upstreams := [{ Name := "main", Url := "http://127.0.0.1:8543" },
                  { Name := "backup", Url := "http://127.0.0.2:8543" }],
    aux := () }

/-- A cycle in which the first upstream fails its check and the second passes. -/
def secondHealthy (j : Nat) : CheckResult :=
  if j = 1 then { ok := true, err := none } else { ok := false, err := some "timeout" }

/-- A cycle in which every check fails. -/
def noneHealthy (_ : Nat) : CheckResult := { ok := false, err := some "timeout" }

/-- The bytes of an ASCII text. -/
def ascii (text : String) : Bytes := text.toList.map (fun ch => UInt8.ofNat ch.toNat)

/-- The line `{"id":1,"method":"eth_submitWork"}`: a submission without `params`. -/
def lineNoParams : Bytes := ascii "\x7b\"id\":1,\"method\":\"eth_submitWork\"\x7d"

/-- The line `{"id":2,"method":"eth_submitWork","params":[1]}`: a submission whose
`params` is an array holding a number. -/
def lineBadParams : Bytes := ascii "\x7b\"id\":2,\"method\":\"eth_submitWork\",\"params\":[1]\x7d"

/-- The line `{"id":3,"method":"eth_blockNumber","params":[]}`: a method that the proxy
does not serve. -/
def lineUnknown : Bytes := ascii "\x7b\"id\":3,\"method\":\"eth_blockNumber\",\"params\":[]\x7d"

/-- The line `{"id":4,"method":"eth_submitHashrate","params":["0x1","0x2"]}`. -/
def lineHashrate : Bytes :=
  ascii "\x7b\"id\":4,\"method\":\"eth_submitHashrate\",\"params\":[\"0x1\",\"0x2\"]\x7d"

/-- The line `{"method":"eth_getWork"}`: a request without `id`. -/
def lineNoId : Bytes := ascii "\x7b\"method\":\"eth_getWork\"\x7d"

/-- The line `{"id":5,"method":"eth_getWork","params":[]}`. -/
def lineGetWork : Bytes := ascii "\x7b\"id\":5,\"method\":\"eth_getWork\",\"params\":[]\x7d"

/-- The line `{"id":6,"method":"eth_submitWork","params":["0x1","0x2","0x3"]}`. -/
def lineSubmit : Bytes :=
  ascii "\x7b\"id\":6,\"method\":\"eth_submitWork\",\"params\":[\"0x1\",\"0x2\",\"0x3\"]\x7d"

/-- The line `{"id":7,`: a truncated object, which is not JSON. -/
def lineBroken : Bytes := ascii "\x7b\"id\":7,"

/-- The request that `lineNoParams` decodes to: `params` is nil. -/
def reqNoParams : JSONRpcReq :=
  { Id := some (ascii "1"), Method := "eth_submitWork", Params := none }

/-- The request that `lineBadParams` decodes to. -/
def reqBadParams : JSONRpcReq :=
  { Id := some (ascii "2"), Method := "eth_submitWork", Params := some (ascii "[1]") }

/-- The request that `lineUnknown` decodes to. -/
def reqUnknown : JSONRpcReq :=
  { Id := some (ascii "3"), Method := "eth_blockNumber", Params := some (ascii "[]") }

/-- The request that `lineHashrate` decodes to. -/
def reqHashrate : JSONRpcReq :=
  { Id := some (ascii "4"), Method := "eth_submitHashrate",
    Params := some (ascii "[\"0x1\",\"0x2\"]") }

/-- The request that `lineNoId` decodes to: `id` is nil. -/
def reqNoId : JSONRpcReq :=
  { Id := none, Method := "eth_getWork", Params := none }

/-- The request that `lineGetWork` decodes to. -/
def reqGetWork : JSONRpcReq :=
  { Id := some (ascii "5"), Method := "eth_getWork", Params := some (ascii "[]") }

/-- The request that `lineSubmit` decodes to. -/
def reqSubmit : JSONRpcReq :=
  { Id := some (ascii "6"), Method := "eth_submitWork",
    Params := some (ascii "[\"0x1\",\"0x2\",\"0x3\"]") }

/-- What `json.Unmarshal(data, &req)` gives on the sample lines; any other line is
taken to be malformed. -/
def sampleUnmarshalReq (data : Bytes) : Except String JSONRpcReq :=
  if data = lineNoParams then .ok reqNoParams
  else if data = lineBadParams then .ok reqBadParams
  else if data = lineUnknown then .ok reqUnknown
  else if data = lineHashrate then .ok reqHashrate
  else if data = lineNoId then .ok reqNoId
  else if data = lineGetWork then .ok reqGetWork
  else if data = lineSubmit then .ok reqSubmit
  else .error "unexpected end of JSON input"

/-- What `json.Unmarshal(*req.Params, &params)` gives on the sample `params`: the two
arrays of strings decode, the array holding a number does not. -/
def sampleUnmarshalStrings (raw : Bytes) : Except String (List String) :=
  if raw = ascii "[]" then .ok []
  else if raw = ascii "[\"0x1\",\"0x2\"]" then .ok ["0x1", "0x2"]
  else if raw = ascii "[\"0x1\",\"0x2\",\"0x3\"]" then .ok ["0x1", "0x2", "0x3"]
  else .error "json: cannot unmarshal number into Go value of type string"

/-- A sample environment: the decoders of the sample lines, and handlers that leave
the server as it is. The handler for unknown methods builds a reply. -/
def sampleEnv : Env Unit Unit :=
  { unmarshalReq := sampleUnmarshalReq
    unmarshalStrings := sampleUnmarshalStrings
    splitHost := fun _ => "10.0.0.7"
    handleGetWorkRPC := fun s _ _ _ => ((["0xheader", "0xseed", "0xtarget"], none), s)
    handleSubmitRPC := fun s _ _ _ _ => ((false, none), s)
    handleSubmitHashrate := fun s _ _ => (true, s)
    handleUnknownRPC := fun s _ _ => (some { Code := -1, Message := "Method not supported" }, s) }

/-- A successfully read line. -/
def line (data : Bytes) : ReadLine := { data := data, isPrefix := false, err := none }

/-- A read that fails with `err` and returns no data. -/
def failed (err : ReadError) : ReadLine := { data := [], isPrefix := false, err := some err }

/-- A request on route `/minerA`, whose body is not yet given. -/
def sampleRequest (body : Nat → ReadLine) : Request :=
  { Close := false, Vars := [("id", "minerA")], RemoteAddr := "10.0.0.7:51234",
    Body := fun _ => body, BodyClosed := false }

/-- A connection of the server `twoUpstreams`, before anything is read. -/
def sampleConn : Conn Unit Unit :=
  { s := twoUpstreams, r := sampleRequest (fun _ => failed .EOF),
    cs := { enc := [], ip := "10.0.0.7" }, log := [], calls := [] }

/-- A body of three reads: the line `{"id":5,"method":"eth_getWork","params":[]}`, then
the first 1024 bytes of a line that does not fit the buffer, then `io.EOF`. -/
def floodBody (i : Nat) : ReadLine :=
  if i = 0 then line lineGetWork
  else if i = 1 then { data := List.replicate 1024 120, isPrefix := true, err := none }
  else failed .EOF

/-- A body of three reads: the `getWork` line, the truncated line `{"id":7,`, then the
`getWork` line again. -/
def brokenBody (i : Nat) : ReadLine :=
  if i = 0 then line lineGetWork
  else if i = 1 then line lineBroken
  else line lineGetWork

/-- The connection of request `r` once `handleClient` has answered one `getWork` line. -/
def afterGetWork (r : Request) : Conn Unit Unit :=
  { s := twoUpstreams, r := r,
    cs := { enc := [{ Id := some (ascii "5"), Version := "2.0",
                      Result := .work ["0xheader", "0xseed", "0xtarget"], Error := none }],
            ip := "10.0.0.7" },
    log := [], calls := [Call.handleGetWorkRPC] }

/-! ## Upstream selection: lemmas -/

theorem toInt32_of_lt (i : Nat) (h : i < 2147483648) : toInt32 (i : Int) = (i : Int) := by
  unfold toInt32
  omega

theorem index?_natCast {α : Type} (xs : List α) (k : Nat) : index? xs (k : Int) = xs.get? k := by
  simp [index?]

/-- Once `backup` is set, the rest of the loop leaves `candidate` and `backup` alone. -/
theorem checkLoop_backup (check : Nat → CheckResult) (l : List RPCClient) (i : Nat)
    (st : CheckLoop) (hb : st.backup = true) :
    (checkLoop check l i st).candidate = st.candidate ∧
      (checkLoop check l i st).backup = true := by
  induction l generalizing i st with
  | nil => simp [checkLoop, hb]
  | cons v rest ih =>
    simp only [checkLoop, hb, Bool.not_true, Bool.and_false, Bool.false_eq_true, if_false]
    exact ih (i + 1) _ rfl

/-- While every check fails, the loop leaves `candidate` and `backup` alone. -/
theorem checkLoop_all_fail (check : Nat → CheckResult) (l : List RPCClient) (i : Nat)
    (st : CheckLoop) (hfail : ∀ j, i ≤ j → j < i + l.length → (check j).ok = false) :
    (checkLoop check l i st).candidate = st.candidate ∧
      (checkLoop check l i st).backup = st.backup := by
  induction l generalizing i st with
  | nil => simp [checkLoop]
  | cons v rest ih =>
    have h0 : (check i).ok = false := hfail i (le_refl _) (by simp)
    simp only [checkLoop, h0, Bool.false_and, Bool.false_eq_true, if_false]
    refine ih (i + 1) _ ?_
    intro j h1 h2
    exact hfail j (by omega) (by simp only [List.length_cons]; omega)

/-- With `backup` unset, the loop stops at the first index whose check is ok. -/
theorem checkLoop_first_ok (check : Nat → CheckResult) (l : List RPCClient) (i k : Nat)
    (st : CheckLoop) (hb : st.backup = false) (hik : i ≤ k) (hk : k < i + l.length)
    (hok : (check k).ok = true) (hmin : ∀ j, i ≤ j → j < k → (check j).ok = false) :
    (checkLoop check l i st).candidate = toInt32 (k : Int) := by
  induction l generalizing i st with
  | nil => simp at hk; omega
  | cons v rest ih =>
    by_cases hki : k = i
    · subst hki
      simp only [checkLoop, hok, hb, Bool.not_false, Bool.and_self, if_true]
      exact (checkLoop_backup check rest (k + 1) _ rfl).1
    · have h0 : (check i).ok = false := hmin i (le_refl _) (by omega)
      simp only [checkLoop, h0, Bool.false_and, Bool.false_eq_true, if_false]
      refine ih (i + 1) _ (by simp [hb]) (by omega) ?_ ?_
      · simp only [List.length_cons] at hk; omega
      · intro j h1 h2
        exact hmin j (by omega) h2

/-! ## Upstream selection: claims -/

/-- C1: when at least one client's check is ok in a cycle, `checkUpstreams` returns and
leaves as active index the smallest index `k` whose check was ok, whatever the index
was before; nothing else of the server changes, and `rpc` then returns the client at
`k`, which passed its check. The list is assumed to be indexable by an `int32`. -/
theorem checkUpstreams_selects_first_healthy (s : ProxyServer MinersMap Aux)
    (check : Nat → CheckResult) (hfit : s.upstreams.length ≤ 2147483648)
    (hex : ∃ j, j < s.upstreams.length ∧ (check j).ok = true) :
    ∃ (k : Nat) (log : List String),
      checkUpstreams s check = .ok ({ s with upstream := (k : Int) }, log) ∧
      k < s.upstreams.length ∧ (check k).ok = true ∧
      (∀ j, j < k → (check j).ok = false) ∧
      ∃ v, rpc { s with upstream := (k : Int) } = some v ∧ s.upstreams.get? k = some v := by
  classical
  have hk := Nat.find_spec hex
  have hmin : ∀ j, j < Nat.find hex → (check j).ok = false := by
    intro j hj
    have h := Nat.find_min hex hj
    by_contra hne
    exact h ⟨by omega, by simpa using hne⟩
  generalize Nat.find hex = k at hk hmin
  obtain ⟨hlt, hok⟩ := hk
  have hcand : (checkLoop check s.upstreams 0
      { candidate := toInt32 0, backup := false, log := [] }).candidate = (k : Int) := by
    rw [checkLoop_first_ok check s.upstreams 0 k _ rfl (Nat.zero_le _) (by omega) hok
      (fun j _ hj => hmin j hj)]
    exact toInt32_of_lt k (by omega)
  obtain ⟨v, hv⟩ : ∃ v, s.upstreams.get? k = some v :=
    ⟨s.upstreams.get ⟨k, hlt⟩, List.get?_eq_get hlt⟩
  have hrpc : rpc { s with upstream := (k : Int) } = some v := by
    simp only [rpc, index?_natCast]
    exact hv
  by_cases hsw : s.upstream = (k : Int)
  · refine ⟨k, (checkLoop check s.upstreams 0
      { candidate := toInt32 0, backup := false, log := [] }).log, ?_, hlt, hok, hmin, v,
      hrpc, hv⟩
    unfold checkUpstreams
    simp only [hcand, hsw, ne_eq, not_true_eq_false, if_false]
    cases s
    simp_all
  · refine ⟨k, (checkLoop check s.upstreams 0
      { candidate := toInt32 0, backup := false, log := [] }).log
        ++ ["Switching to " ++ v.Name ++ " upstream"], ?_, hlt, hok, hmin, v, hrpc, hv⟩
    unfold checkUpstreams
    simp only [hcand, hsw, ne_eq, not_false_eq_true, if_true, index?_natCast, hv]

/-- C1, at a concrete cycle: with upstream 1 active, upstream 0 failing and upstream 1
passing, the cycle ends with upstream 1 active. -/
theorem checkUpstreams_selects_first_healthy_witness :
    ∃ (k : Nat) (log : List String), checkUpstreams twoUpstreams secondHealthy
        = .ok ({ twoUpstreams with upstream := (k : Int) }, log) ∧
      k < twoUpstreams.upstreams.length ∧ (secondHealthy k).ok = true ∧
      (∀ j, j < k → (secondHealthy j).ok = false) ∧
      ∃ v, rpc { twoUpstreams with upstream := (k : Int) } = some v ∧
        twoUpstreams.upstreams.get? k = some v :=
  checkUpstreams_selects_first_healthy twoUpstreams secondHealthy (by decide)
    ⟨1, by decide, by decide⟩

/-- C2, as stated, fails: with upstream 1 active and every check failing, the cycle
ends with upstream 0 active. -/
theorem checkUpstreams_not_fail_static :
    (∀ j, j < twoUpstreams.upstreams.length → (noneHealthy j).ok = false) ∧
      twoUpstreams.upstream = 1 ∧
      checkUpstreams twoUpstreams noneHealthy
        = .ok ({ twoUpstreams with upstream := 0 },
               ["Upstream main didn't pass check: timeout",
                "Upstream backup didn't pass check: timeout",
                "Switching to main upstream"]) := by
  refine ⟨fun _ _ => rfl, rfl, ?_⟩
  rfl

/-- C2, amended: when every check of a cycle fails, `checkUpstreams` leaves index 0,
the first declared upstream, active, whatever the index was before (on an empty list
the index must already be 0). The index is thus kept exactly when it was 0. -/
theorem checkUpstreams_all_fail_selects_first (s : ProxyServer MinersMap Aux)
    (check : Nat → CheckResult)
    (hfail : ∀ j, j < s.upstreams.length → (check j).ok = false)
    (hne : s.upstreams ≠ [] ∨ s.upstream = 0) :
    ∃ log, checkUpstreams s check = .ok ({ s with upstream := 0 }, log) ∧
      (({ s with upstream := 0 } : ProxyServer MinersMap Aux).upstream = s.upstream
        ↔ s.upstream = 0) := by
  have hcand : (checkLoop check s.upstreams 0
      { candidate := toInt32 0, backup := false, log := [] }).candidate = 0 := by
    rw [(checkLoop_all_fail check s.upstreams 0 _ (fun j _ hj => hfail j (by omega))).1]
    rfl
  by_cases hsw : s.upstream = 0
  · refine ⟨(checkLoop check s.upstreams 0
      { candidate := toInt32 0, backup := false, log := [] }).log, ?_, by simp [hsw]⟩
    unfold checkUpstreams
    simp only [hcand, hsw, ne_eq, not_true_eq_false, if_false]
    cases s
    simp_all
  · have hl : s.upstreams ≠ [] := hne.resolve_right hsw
    obtain ⟨v, rest, hv⟩ := List.exists_cons_of_ne_nil hl
    refine ⟨(checkLoop check s.upstreams 0
      { candidate := toInt32 0, backup := false, log := [] }).log
        ++ ["Switching to " ++ v.Name ++ " upstream"], ?_, by simp [eq_comm]⟩
    unfold checkUpstreams
    simp only [hcand, hsw, ne_eq, not_false_eq_true, if_true]
    simp [index?, hv]

/-- C2, amended, at a concrete cycle: the server of `twoUpstreams` with every check
failing. -/
theorem checkUpstreams_all_fail_selects_first_witness :
    ∃ log, checkUpstreams twoUpstreams noneHealthy
        = .ok ({ twoUpstreams with upstream := 0 }, log) ∧
      (({ twoUpstreams with upstream := 0 } : ProxyServer Unit Unit).upstream
          = twoUpstreams.upstream ↔ twoUpstreams.upstream = 0) :=
  checkUpstreams_all_fail_selects_first twoUpstreams noneHealthy (fun _ _ => rfl)
    (Or.inl (by decide))

/-! ## Dispatch of one request: claims -/

/-- C3, as stated, fails: the request `{"id":2,"method":"eth_submitWork","params":[1]}`
has an id, and `handleMessage` answers it with no response line: it only logs. -/
theorem handleMessage_bad_params_silent :
    reqBadParams.Id = some (ascii "2") ∧
      sampleEnv.unmarshalStrings (ascii "[1]")
        = .error "json: cannot unmarshal number into Go value of type string" ∧
      (handleMessage sampleEnv sampleConn reqBadParams).toOption.map (fun c => c.cs.enc)
        = some [] ∧
      (handleMessage sampleEnv sampleConn reqBadParams).toOption.map (fun c => c.log)
        = some ["Unable to parse params"] :=
  ⟨rfl, rfl, rfl, rfl⟩

/-- C3, amended: for a request with id `id`, (1) when the method is not `submitWork`, or
its `params` are present and decode as an array of strings, `handleMessage` returns
having encoded exactly one response, which carries `id`; (2) when the method is
`submitWork` and its `params` are present and do not decode as an array of strings,
`handleMessage` returns having encoded no response: it logs "Unable to parse params",
calls no handler and leaves the server and the request as they were. -/
theorem handleMessage_one_response_unless_bad_params (env : Env MinersMap Aux)
    (c : Conn MinersMap Aux) (req : JSONRpcReq) (id : Bytes) (hid : req.Id = some id) :
    ((isSubmitWork req.Method = false ∨
        ∃ raw params, req.Params = some raw ∧ env.unmarshalStrings raw = .ok params) →
      ∃ c1 resp, handleMessage env c req = .ok c1 ∧
        c1.cs.enc = c.cs.enc ++ [resp] ∧ resp.Id = some id) ∧
    (∀ raw e, isSubmitWork req.Method = true → req.Params = some raw →
      env.unmarshalStrings raw = .error e →
      handleMessage env c req = .ok { c with log := c.log ++ ["Unable to parse params"] }) := by
  constructor
  · intro h
    unfold handleMessage
    simp only [hid]
    by_cases hg : req.Method = "eth_getWork" ∨ req.Method = "aqua_getWork"
    · simp only [hg, if_true]
      cases hr : (env.handleGetWorkRPC c.s c.cs
          (if lookup c.r.Vars "diff" = "" then "0" else lookup c.r.Vars "diff")
          (lookup c.r.Vars "id")).1.2 with
      | none => exact ⟨_, _, rfl, rfl, rfl⟩
      | some er => exact ⟨_, _, rfl, rfl, rfl⟩
    · simp only [hg, if_false]
      by_cases hs : req.Method = "eth_submitWork" ∨ req.Method = "aqua_submitWork"
      · simp only [hs, if_true]
        rcases h with h | ⟨raw, params, hraw, hdec⟩
        · simp [isSubmitWork, hs] at h
        · simp only [hraw, hdec]
          cases hr : (env.handleSubmitRPC c.s c.cs
              (if lookup c.r.Vars "diff" = "" then "0" else lookup c.r.Vars "diff")
              (lookup c.r.Vars "id") params).1.2 with
          | none => exact ⟨_, _, rfl, rfl, rfl⟩
          | some er => exact ⟨_, _, rfl, rfl, rfl⟩
      · simp only [hs, if_false]
        by_cases hh : req.Method = "eth_submitHashrate" ∨ req.Method = "aqua_submitHashrate"
        · simp only [hh, if_true]
          by_cases hcfg : c.s.config.Proxy.SubmitHashrate = true
          · simp only [hcfg, if_true]
            exact ⟨_, _, rfl, rfl, rfl⟩
          · simp only [hcfg, Bool.false_eq_true, if_false]
            exact ⟨_, _, rfl, rfl, rfl⟩
        · simp only [hh, if_false]
          exact ⟨_, _, rfl, rfl, rfl⟩
  · intro raw e hs hraw hdec
    have hs1 : req.Method = "eth_submitWork" ∨ req.Method = "aqua_submitWork" := by
      simpa [isSubmitWork] using hs
    have hg : ¬ (req.Method = "eth_getWork" ∨ req.Method = "aqua_getWork") := by
      rcases hs1 with h | h <;> simp [h]
    unfold handleMessage
    simp only [hid, hg, hs1, if_true, if_false, hraw, hdec]

/-- C3, amended, at concrete requests: the submission with three strings is answered
by one response with id `6`; the one whose `params` is `[1]` only adds a log line. -/
theorem handleMessage_one_response_unless_bad_params_witness :
    (∃ c1 resp, handleMessage sampleEnv sampleConn reqSubmit = .ok c1 ∧
        c1.cs.enc = sampleConn.cs.enc ++ [resp] ∧ resp.Id = some (ascii "6")) ∧
      handleMessage sampleEnv sampleConn reqBadParams
        = .ok { sampleConn with log := sampleConn.log ++ ["Unable to parse params"] } :=
  ⟨(handleMessage_one_response_unless_bad_params sampleEnv sampleConn reqSubmit
      (ascii "6") rfl).1 (Or.inr ⟨_, _, rfl, rfl⟩),
   (handleMessage_one_response_unless_bad_params sampleEnv sampleConn reqBadParams
      (ascii "2") rfl).2 _ _ rfl rfl rfl⟩

/-- C4: for a request whose id is nil, `handleMessage` returns having encoded no
response and called no handler; the server is untouched and `r.Close` is set. -/
theorem handleMessage_nil_id (env : Env MinersMap Aux) (c : Conn MinersMap Aux)
    (req : JSONRpcReq) (hid : req.Id = none) :
    ∃ c1, handleMessage env c req = .ok c1 ∧ c1.cs.enc = c.cs.enc ∧ c1.calls = c.calls ∧
      c1.s = c.s ∧ c1.r.Close = true := by
  refine ⟨{ c with log := c.log ++ ["Missing RPC id"], r := { c.r with Close := true } },
    ?_, rfl, rfl, rfl, rfl⟩
  unfold handleMessage
  simp only [hid]

/-- C4, at the request `{"method":"eth_getWork"}`. -/
theorem handleMessage_nil_id_witness :
    reqNoId.Id = none ∧
      ∃ c1, handleMessage sampleEnv sampleConn reqNoId = .ok c1 ∧
        c1.cs.enc = sampleConn.cs.enc ∧ c1.calls = sampleConn.calls ∧
        c1.s = sampleConn.s ∧ c1.r.Close = true :=
  ⟨rfl, handleMessage_nil_id sampleEnv sampleConn reqNoId rfl⟩

/-- C7: with `SubmitHashrate` off, a `submitHashrate` request with id `id` is answered,
whatever its `params`, by exactly one response, with result `true` and no error; no
handler is called, and the server, its miner registry included, is left as it was. -/
theorem handleMessage_submitHashrate_disabled (env : Env MinersMap Aux)
    (c : Conn MinersMap Aux) (req : JSONRpcReq) (id : Bytes) (hid : req.Id = some id)
    (hm : req.Method = "eth_submitHashrate" ∨ req.Method = "aqua_submitHashrate")
    (hoff : c.s.config.Proxy.SubmitHashrate = false) :
    ∃ c1, handleMessage env c req = .ok c1 ∧
      c1.cs.enc = c.cs.enc ++
        [{ Id := some id, Version := "2.0", Result := .bool true, Error := none }] ∧
      c1.calls = c.calls ∧ c1.s.miners = c.s.miners ∧ c1.s = c.s := by
  refine ⟨{ c with cs := sendResult c.cs req.Id (.bool true) }, ?_, ?_, rfl, rfl, rfl⟩
  · have hg : ¬ (req.Method = "eth_getWork" ∨ req.Method = "aqua_getWork") := by
      rcases hm with h | h <;> simp [h]
    have hs : ¬ (req.Method = "eth_submitWork" ∨ req.Method = "aqua_submitWork") := by
      rcases hm with h | h <;> simp [h]
    unfold handleMessage
    simp only [hid, hg, hs, hm, hoff, if_true, if_false, Bool.false_eq_true]
  · simp [sendResult, hid]

/-- C7, at the request `{"id":4,"method":"eth_submitHashrate","params":["0x1","0x2"]}`
on the server `twoUpstreams`, whose `SubmitHashrate` is off. -/
theorem handleMessage_submitHashrate_disabled_witness :
    ∃ c1, handleMessage sampleEnv sampleConn reqHashrate = .ok c1 ∧
      c1.cs.enc = sampleConn.cs.enc ++
        [{ Id := some (ascii "4"), Version := "2.0", Result := .bool true, Error := none }] ∧
      c1.calls = sampleConn.calls ∧ c1.s.miners = sampleConn.s.miners ∧ c1.s = sampleConn.s :=
  handleMessage_submitHashrate_disabled sampleEnv sampleConn reqHashrate (ascii "4") rfl
    (Or.inl rfl) rfl

/-- A `submitWork` request with an id and nil `params` makes `handleMessage` panic. -/
theorem handleMessage_nil_params (env : Env MinersMap Aux) (c : Conn MinersMap Aux)
    (req : JSONRpcReq) (id : Bytes) (hid : req.Id = some id)
    (hm : req.Method = "eth_submitWork" ∨ req.Method = "aqua_submitWork")
    (hp : req.Params = none) :
    handleMessage env c req = .error "invalid memory address or nil pointer dereference" := by
  have hg : ¬ (req.Method = "eth_getWork" ∨ req.Method = "aqua_getWork") := by
    rcases hm with h | h <;> simp [h]
  unfold handleMessage
  simp only [hid, hg, hm, hp, if_true, if_false]

/-- C10 fails on the code: the line `{"id":1,"method":"eth_submitWork"}` decodes to a
request with an id and nil `params`; `handleMessage` panics on it, and so does
`handleClient` when it reads that line. -/
theorem handleMessage_nil_params_panics :
    sampleEnv.unmarshalReq lineNoParams = .ok reqNoParams ∧
      reqNoParams.Params = none ∧
      handleMessage sampleEnv sampleConn reqNoParams
        = .error "invalid memory address or nil pointer dereference" ∧
      handleClient sampleEnv twoUpstreams []
          (sampleRequest (fun i => if i = 0 then line lineNoParams else failed .EOF)) [] 2
        = .panicked "invalid memory address or nil pointer dereference" :=
  ⟨rfl, rfl, rfl, rfl⟩

/-! ## The read loop: lemmas -/

/-- The loop run on `l1 ++ l2`: once it is `reading` after `l1`, it goes on with `l2`;
when it has returned or panicked within `l1`, `l2` plays no part. -/
theorem readLoop_append (env : Env MinersMap Aux) (l1 l2 : List ReadLine)
    (c : Conn MinersMap Aux) :
    readLoop env (l1 ++ l2) c =
      match readLoop env l1 c with
      | .reading c1 => readLoop env l2 c1
      | o => o := by
  induction l1 generalizing c with
  | nil => simp [readLoop]
  | cons rl rest ih =>
    simp only [List.cons_append, readLoop]
    split
    · rfl
    · split
      · rfl
      · split
        · split
          · rfl
          · split
            · rfl
            · exact ih _
        · exact ih _

/-- The first `n` results of a reader, for `k < n`: the first `k`, then result `k`,
then the later ones. -/
theorem map_range_split (f : Nat → ReadLine) (k n : Nat) (h : k < n) :
    ∃ rest, (List.range n).map f = (List.range k).map f ++ f k :: rest := by
  induction n with
  | zero => omega
  | succ m ih =>
    by_cases hk : k = m
    · subst hk
      exact ⟨[], by simp [List.range_succ]⟩
    · obtain ⟨rest, hrest⟩ := ih (by omega)
      exact ⟨rest ++ [f m], by simp [List.range_succ, hrest]⟩

/-- Reads that fail with an error other than `io.EOF` are skipped one after the other:
the loop is still `reading` after any number of them. -/
theorem readLoop_failed_reads (env : Env MinersMap Aux) (l : List ReadLine)
    (c : Conn MinersMap Aux)
    (h : ∀ rl ∈ l, ∃ msg, rl = { data := [], isPrefix := false, err := some (.other msg) }) :
    readLoop env l c = .reading c := by
  induction l with
  | nil => rfl
  | cons rl rest ih =>
    obtain ⟨msg, hrl⟩ := h rl (List.mem_cons_self _ _)
    have hrest := ih (fun x hx => h x (List.mem_cons_of_mem _ hx))
    subst hrl
    simpa [readLoop] using hrest

/-- The deferred call changes a returned outcome only: a run that is `reading` after
it was `reading` before it. -/
theorem closeBody_eq_reading (o : Outcome (Conn MinersMap Aux)) (c1 : Conn MinersMap Aux)
    (h : closeBody o = .reading c1) : o = .reading c1 := by
  cases o <;> simp_all [closeBody]

/-- What `handleClient` does at read `k`, in terms of the loop: when it is `reading`
with `c1` after `k` reads, following `n > k` reads is running the loop from `c1` on
result `k` and on some later results. -/
theorem handleClient_from (env : Env MinersMap Aux) (s : ProxyServer MinersMap Aux)
    (w : List JSONRpcResp) (r : Request) (log : List String) (k n : Nat)
    (c1 : Conn MinersMap Aux) (hread : handleClient env s w r log k = .reading c1)
    (hkn : k < n) :
    ∃ rest, handleClient env s w r log n
      = closeBody (readLoop env (r.Body MaxReqSize k :: rest) c1) := by
  obtain ⟨rest, hrest⟩ := map_range_split (r.Body MaxReqSize) k n hkn
  refine ⟨rest, ?_⟩
  have h1 : readLoop env ((List.range k).map (r.Body MaxReqSize))
      { s := s, r := r, cs := { enc := w, ip := env.splitHost r.RemoteAddr },
        log := log, calls := [] } = .reading c1 :=
    closeBody_eq_reading _ _ hread
  show closeBody (readLoop env ((List.range n).map (r.Body MaxReqSize)) _) = _
  rw [hrest, readLoop_append, h1]

/-! ## The read loop: claims -/

/-- C5: when `handleClient` has handled `k` reads and is reading, with connection `c1`,
and read `k` reports `isPrefix`, then it returns the error "socket flood", however many
further reads are allowed. The connection it returns with is `c1`, to which only the log
line and the closing of the body are added: nothing is encoded, no handler is called,
the server is untouched, and what the later reads would give plays no part. -/
theorem handleClient_socket_flood (env : Env MinersMap Aux) (s : ProxyServer MinersMap Aux)
    (w : List JSONRpcResp) (r : Request) (log : List String) (k : Nat)
    (c1 : Conn MinersMap Aux) (hread : handleClient env s w r log k = .reading c1)
    (hpre : (r.Body MaxReqSize k).isPrefix = true) :
    ∀ n, k < n → handleClient env s w r log n =
      .returned (some "socket flood")
        { c1 with log := c1.log ++ ["Socket flood detected"],
                  r := { c1.r with BodyClosed := true } } := by
  intro n hkn
  obtain ⟨rest, hrest⟩ := handleClient_from env s w r log k n c1 hread hkn
  rw [hrest]
  simp [readLoop, hpre, closeBody]

/-- C5, at the body `floodBody`: after the `getWork` line is answered, the oversized
line ends `handleClient` with "socket flood" and the one response of the first line. -/
theorem handleClient_socket_flood_witness :
    handleClient sampleEnv twoUpstreams [] (sampleRequest floodBody) [] 3 =
      .returned (some "socket flood")
        { afterGetWork (sampleRequest floodBody) with
            log := (afterGetWork (sampleRequest floodBody)).log ++ ["Socket flood detected"],
            r := { (afterGetWork (sampleRequest floodBody)).r with BodyClosed := true } } :=
  handleClient_socket_flood sampleEnv twoUpstreams [] (sampleRequest floodBody) [] 1
    (afterGetWork (sampleRequest floodBody)) rfl rfl 3 (by decide)

/-- C6: when `handleClient` has handled `k` reads and is reading, with connection `c1`,
and read `k` is a line of more than one byte that `json.Unmarshal` rejects with error
`e`, then it returns `e`, however many further reads are allowed. The connection it
returns with is `c1`, to which only the log line and the closing of the body are added:
the responses are those of the lines before, and no later line is read or dispatched. -/
theorem handleClient_malformed_line (env : Env MinersMap Aux) (s : ProxyServer MinersMap Aux)
    (w : List JSONRpcResp) (r : Request) (log : List String) (k : Nat)
    (c1 : Conn MinersMap Aux) (e : String)
    (hread : handleClient env s w r log k = .reading c1)
    (hpre : (r.Body MaxReqSize k).isPrefix = false)
    (herr : (r.Body MaxReqSize k).err ≠ some ReadError.EOF)
    (hlen : 1 < (r.Body MaxReqSize k).data.length)
    (hdec : env.unmarshalReq (r.Body MaxReqSize k).data = .error e) :
    ∀ n, k < n → handleClient env s w r log n =
      .returned (some e)
        { c1 with log := c1.log ++ ["Malformed request: " ++ e],
                  r := { c1.r with BodyClosed := true } } := by
  intro n hkn
  obtain ⟨rest, hrest⟩ := handleClient_from env s w r log k n c1 hread hkn
  rw [hrest]
  simp [readLoop, hpre, herr, hlen, hdec, closeBody]

/-- C6, at the body `brokenBody`: after the `getWork` line is answered, the truncated
line ends `handleClient` with the decoder's error; the third line is not answered. -/
theorem handleClient_malformed_line_witness :
    handleClient sampleEnv twoUpstreams [] (sampleRequest brokenBody) [] 3 =
      .returned (some "unexpected end of JSON input")
        { afterGetWork (sampleRequest brokenBody) with
            log := (afterGetWork (sampleRequest brokenBody)).log
              ++ ["Malformed request: " ++ "unexpected end of JSON input"],
            r := { (afterGetWork (sampleRequest brokenBody)).r with BodyClosed := true } } :=
  handleClient_malformed_line sampleEnv twoUpstreams [] (sampleRequest brokenBody) [] 1
    (afterGetWork (sampleRequest brokenBody)) "unexpected end of JSON input" rfl rfl
    (by decide) (by decide) rfl 3 (by decide)

/-- C8: for a request `req` with id `id` whose method is none of the six served, and
for which `handleUnknownRPC` returns the reply `e`, `handleMessage` returns having
encoded exactly one response: it carries `id` and the error `e` and has no result. The
request, and so `r.Close`, is left as it was. `handleClient` goes on: when it reads a
line that decodes to `req`, its loop continues on the following reads, and
`handleClient` is reading the next line. -/
theorem handleMessage_unknown_method (env : Env MinersMap Aux) (c : Conn MinersMap Aux)
    (req : JSONRpcReq) (id : Bytes) (e : ErrorReply) (hid : req.Id = some id)
    (hm : served req.Method = false)
    (hrep : (env.handleUnknownRPC c.s c.cs req).1 = some e) :
    ∃ c1, handleMessage env c req = .ok c1 ∧
      c1.cs.enc = c.cs.enc ++
        [{ Id := some id, Version := "2.0", Result := .nil, Error := some e }] ∧
      c1.r = c.r ∧
      (∀ rl rest, rl.isPrefix = false → rl.err ≠ some ReadError.EOF → 1 < rl.data.length →
        env.unmarshalReq rl.data = .ok req →
        readLoop env (rl :: rest) c = readLoop env rest c1) ∧
      (∀ s w r log k, handleClient env s w r log k = .reading c →
        (r.Body MaxReqSize k).isPrefix = false →
        (r.Body MaxReqSize k).err ≠ some ReadError.EOF →
        1 < (r.Body MaxReqSize k).data.length →
        env.unmarshalReq (r.Body MaxReqSize k).data = .ok req →
        handleClient env s w r log (k + 1) = .reading c1) := by
  simp only [served, decide_eq_false_iff_not, not_or] at hm
  obtain ⟨h1, h2, h3, h4, h5, h6⟩ := hm
  have hmsg : handleMessage env c req =
      .ok { c with s := (env.handleUnknownRPC c.s c.cs req).2,
                   calls := c.calls ++ [Call.handleUnknownRPC],
                   cs := sendError c.cs req.Id (env.handleUnknownRPC c.s c.cs req).1 } := by
    unfold handleMessage
    simp only [hid, h1, h2, h3, h4, h5, h6, or_self, if_false]
  have hloop : ∀ rl rest, rl.isPrefix = false → rl.err ≠ some ReadError.EOF →
      1 < rl.data.length → env.unmarshalReq rl.data = .ok req →
      readLoop env (rl :: rest) c = readLoop env rest
        { c with s := (env.handleUnknownRPC c.s c.cs req).2,
                 calls := c.calls ++ [Call.handleUnknownRPC],
                 cs := sendError c.cs req.Id (env.handleUnknownRPC c.s c.cs req).1 } := by
    intro rl rest hpre herr hlen hdec
    simp [readLoop, hpre, herr, hlen, hdec, hmsg]
  refine ⟨_, hmsg, ?_, rfl, hloop, ?_⟩
  · simp [sendError, hid, hrep]
  · intro s w r log k hread hpre herr hlen hdec
    have h0 : readLoop env ((List.range k).map (r.Body MaxReqSize))
        { s := s, r := r, cs := { enc := w, ip := env.splitHost r.RemoteAddr },
          log := log, calls := [] } = .reading c :=
      closeBody_eq_reading _ _ hread
    show closeBody (readLoop env ((List.range (k + 1)).map (r.Body MaxReqSize)) _) = _
    rw [List.range_succ, List.map_append, readLoop_append, h0]
    simp only [List.map_cons, List.map_nil]
    rw [hloop _ _ hpre herr hlen hdec]
    rfl

/-- C8, at the request `{"id":3,"method":"eth_blockNumber","params":[]}`. -/
theorem handleMessage_unknown_method_witness :
    ∃ c1, handleMessage sampleEnv sampleConn reqUnknown = .ok c1 ∧
      c1.cs.enc = sampleConn.cs.enc ++
        [{ Id := some (ascii "3"), Version := "2.0", Result := .nil,
           Error := some { Code := -1, Message := "Method not supported" } }] ∧
      c1.r = sampleConn.r ∧
      (∀ rl rest, rl.isPrefix = false → rl.err ≠ some ReadError.EOF → 1 < rl.data.length →
        sampleEnv.unmarshalReq rl.data = .ok reqUnknown →
        readLoop sampleEnv (rl :: rest) sampleConn = readLoop sampleEnv rest c1) ∧
      (∀ s w r log k, handleClient sampleEnv s w r log k = .reading sampleConn →
        (r.Body MaxReqSize k).isPrefix = false →
        (r.Body MaxReqSize k).err ≠ some ReadError.EOF →
        1 < (r.Body MaxReqSize k).data.length →
        sampleEnv.unmarshalReq (r.Body MaxReqSize k).data = .ok reqUnknown →
        handleClient sampleEnv s w r log (k + 1) = .reading c1) :=
  handleMessage_unknown_method sampleEnv sampleConn reqUnknown (ascii "3")
    { Code := -1, Message := "Method not supported" } rfl (by decide) rfl

/-- When `handleClient` is reading and the read fails with `io.EOF`, it returns `nil`. -/
theorem handleClient_eof (env : Env MinersMap Aux) (s : ProxyServer MinersMap Aux)
    (w : List JSONRpcResp) (r : Request) (log : List String) (k : Nat)
    (c1 : Conn MinersMap Aux) (hread : handleClient env s w r log k = .reading c1)
    (hpre : (r.Body MaxReqSize k).isPrefix = false)
    (herr : (r.Body MaxReqSize k).err = some ReadError.EOF) :
    ∀ n, k < n → handleClient env s w r log n =
      .returned none { c1 with r := { c1.r with BodyClosed := true } } := by
  intro n hkn
  obtain ⟨rest, hrest⟩ := handleClient_from env s w r log k n c1 hread hkn
  rw [hrest]
  simp [readLoop, hpre, herr, closeBody]

/-- When every read of the body fails with an error other than `io.EOF`, `handleClient`
has not returned after any number of reads: it is reading once more, having done
nothing. -/
theorem handleClient_failed_reads (env : Env MinersMap Aux) (s : ProxyServer MinersMap Aux)
    (w : List JSONRpcResp) (r : Request) (log : List String)
    (h : ∀ i, ∃ msg, r.Body MaxReqSize i =
      { data := [], isPrefix := false, err := some (.other msg) }) (n : Nat) :
    handleClient env s w r log n =
      .reading { s := s, r := r, cs := { enc := w, ip := env.splitHost r.RemoteAddr },
                 log := log, calls := [] } := by
  show closeBody (readLoop env ((List.range n).map (r.Body MaxReqSize)) _) = _
  rw [readLoop_failed_reads]
  · rfl
  · intro rl hrl
    obtain ⟨i, _, hi⟩ := List.mem_map.mp hrl
    rw [← hi]
    exact h i

/-- C9 fails on the code: on a body whose every read fails with a time-out, an error
other than `io.EOF`, `handleClient` has not returned after `n` reads, for every `n`:
it calls `ReadLine` again. -/
theorem handleClient_retries_failed_read (n : Nat) :
    handleClient sampleEnv twoUpstreams []
        (sampleRequest (fun _ => failed (.other "i/o timeout"))) [] n =
      .reading { s := twoUpstreams,
                 r := sampleRequest (fun _ => failed (.other "i/o timeout")),
                 cs := { enc := [], ip := "10.0.0.7" }, log := [], calls := [] } :=
  handleClient_failed_reads sampleEnv twoUpstreams [] _ [] (fun _ => ⟨"i/o timeout", rfl⟩) n


end Proxy
